import Mathlib

/-!
# Verification development for the sharding client and the accounts-v2 wallet commands

Embedded sources:

* `sharding/client.go`: `Client`, `Client.Start`, `dialRPC`, `Client.unlockAccount`;
* `validator/accounts/v2/cmd_wallet.go`: `WalletCommands` and the three subcommand actions.

Go strings that carry file contents and passwords are byte sequences; texts of
errors, paths and log messages are `String`.  A Go `error` is modelled by its
`Error()` text, and a nil error by `none`.  Calls into collaborators (the CLI
context, the file system, the keystore, the RPC dialler, `verifyVMC`, the wallet
operations) are parameters; every call the embedded code makes is recorded in
a trace of events, in call order.
-/

/-- A byte of a Go string or byte slice. -/
abbrev Byte := Fin 256

/-- A Go string seen as its bytes. -/
abbrev GoString := List Byte

/-- A non-nil Go error, represented by its `Error()` text. -/
abbrev Error := String

/-! ## Go standard library: `strings.Trim` with a one-byte ASCII cutset -/

namespace strings

/-- Go `strings.trimLeftByte`: drop leading bytes equal to `c`. -/
def trimLeftByte : GoString → Byte → GoString
  | [], _ => []
  | b :: s, c => if b = c then trimLeftByte s c else b :: s

/-- Go `strings.trimRightByte`: drop trailing bytes equal to `c`. -/
def trimRightByte (s : GoString) (c : Byte) : GoString :=
  (trimLeftByte s.reverse c).reverse

/-- Go `strings.Trim(s, cutset)` for a cutset of exactly one ASCII byte `c`:
`trimLeftByte(trimRightByte(s, c), c)`. -/
def Trim (s : GoString) (c : Byte) : GoString :=
  trimLeftByte (trimRightByte s c) c

end strings

/-- The newline byte, the cutset `"\n"` of `unlockAccount`. -/
def newline : Byte := 10

/-! ## `sharding/client.go` -/

namespace Sharding

/-- Declaration of a string flag (`cli.StringFlag`): its name and its default value. -/
structure StringFlag where
  Name : String
  Value : String

/-- The command line context (`*cli.Context`), as far as the client queries it. -/
structure Context where
  GlobalIsSet : String → Bool
  GlobalString : String → String

/-- The keystore (`*keystore.KeyStore`), as far as the client calls it. -/
structure KeyStore (Account : Type) where
  Unlock : Account → GoString → Option Error

/-- Go `ethclient.Client`: a wrapper around the RPC connection. -/
structure EthClient (Rpc : Type) where
  c : Rpc
deriving DecidableEq

/-- Go `ethclient.NewClient`. -/
def ethclient.NewClient {Rpc : Type} (rpcClient : Rpc) : EthClient Rpc := ⟨rpcClient⟩

/-- The `Client` struct of `sharding/client.go`. -/
structure Client (Account Rpc : Type) where
  endpoint : String
  client : Option (EthClient Rpc)
  keystore : KeyStore Account
  ctx : Context
  networkID : Nat

/-- One observable call made by the client code. -/
inductive Event (Account Rpc : Type) where
  | logInfo (msg : String)
  | dial (endpoint : String)
  | verifyVMC
  | close (rpcClient : Rpc)
  | readFile (path : String)
  | unlock (account : Account) (pass : GoString)
deriving DecidableEq

/-- Collaborators of the client that are not part of `client.go`. -/
structure Env (Account Rpc : Type) where
  /-- The flag declaration `utils.PasswordFileFlag`. -/
  PasswordFileFlag : StringFlag
  /-- Go `ioutil.ReadFile`. -/
  ReadFile : String → Except Error (List Byte)
  /-- Go `node.DefaultIPCEndpoint`. -/
  DefaultIPCEndpoint : String → String
  /-- Go `rpc.Dial`. -/
  Dial : String → Except Error Rpc
  /-- Go `(*Client).verifyVMC`, which may update the client it is called on. -/
  verifyVMC : Client Account Rpc → Client Account Rpc × Option Error

/-- The constant `clientIdentifier`. -/
def clientIdentifier : String := "geth"

/-- Result of a traced call: the events in call order and the returned value. -/
structure Traced (Account Rpc α : Type) where
  trace : List (Event Account Rpc)
  result : α

/-- Go `dialRPC`: an empty endpoint is replaced by the default IPC endpoint, then dialled. -/
def dialRPC {Account Rpc : Type} (env : Env Account Rpc) (endpoint : String) :
    Traced Account Rpc (Except Error Rpc) :=
  let endpoint := if endpoint = "" then env.DefaultIPCEndpoint clientIdentifier else endpoint
  ⟨[Event.dial endpoint], env.Dial endpoint⟩

/-- Outcome of `Client.Start`: the client afterwards, the calls made, the returned error. -/
structure StartResult (Account Rpc : Type) where
  client : Client Account Rpc
  trace : List (Event Account Rpc)
  err : Option Error

/-- Go `(*Client).Start`. -/
def Client.Start {Account Rpc : Type} (env : Env Account Rpc) (c : Client Account Rpc) :
    StartResult Account Rpc :=
  let t0 : List (Event Account Rpc) := [Event.logInfo "Starting sharding client"]
  let d := dialRPC env c.endpoint
  match d.result with
  | Except.error err => ⟨c, t0 ++ d.trace, some err⟩
  | Except.ok rpcClient =>
    let c1 : Client Account Rpc := { c with client := some (ethclient.NewClient rpcClient) }
    -- defer rpcClient.Close(): runs when Start returns
    match env.verifyVMC c1 with
    | (c2, some err) => ⟨c2, t0 ++ d.trace ++ [Event.verifyVMC, Event.close rpcClient], some err⟩
    | (c2, none) => ⟨c2, t0 ++ d.trace ++ [Event.verifyVMC, Event.close rpcClient], none⟩

/-- Go `fmt.Errorf("unable to read account password contents in file %s. %v", value, err)`. -/
def unreadableError (value : String) (err : Error) : Error :=
  "unable to read account password contents in file " ++ value ++ ". " ++ err

/-- Go `(*Client).unlockAccount`. -/
def Client.unlockAccount {Account Rpc : Type} (env : Env Account Rpc) (c : Client Account Rpc)
    (account : Account) : Traced Account Rpc (Option Error) :=
  let pass : GoString := []
  if c.ctx.GlobalIsSet env.PasswordFileFlag.Name then
    let path := c.ctx.GlobalString env.PasswordFileFlag.Name
    match env.ReadFile path with
    | Except.error err =>
      ⟨[Event.readFile path], some (unreadableError env.PasswordFileFlag.Value err)⟩
    | Except.ok blob =>
      let pass := strings.Trim blob newline
      ⟨[Event.readFile path, Event.unlock account pass], c.keystore.Unlock account pass⟩
  else
    ⟨[Event.unlock account pass], c.keystore.Unlock account pass⟩

end Sharding

/-! ## `validator/accounts/v2/cmd_wallet.go` -/

namespace AccountsV2

/-- The flag declarations `WalletCommands` refers to: those of package `flags`, and
`AltonaTestnet` and `MedallaTestnet` of package `featureconfig`. -/
inductive Flag where
  | WalletDirFlag
  | WalletPasswordsDirFlag
  | KeymanagerKindFlag
  | GrpcRemoteAddressFlag
  | RemoteSignerCertPathFlag
  | RemoteSignerKeyPathFlag
  | RemoteSignerCACertPathFlag
  | WalletPasswordFileFlag
  | MnemonicFileFlag
  | NumAccountsFlag
  | AltonaTestnet
  | MedallaTestnet
deriving DecidableEq, Repr

/-- Execution of an action: it returns a value to its caller, or the process is ended
by the fatal logger after logging a message. -/
inductive Exec (α : Type) where
  | ret (a : α)
  | fatal (msg : String)
deriving DecidableEq

/-- Sequencing: nothing runs after the process has ended. -/
def Exec.bind {α β : Type} : Exec α → (α → Exec β) → Exec β
  | Exec.ret a, f => f a
  | Exec.fatal msg, _ => Exec.fatal msg

instance : Monad Exec where
  pure := Exec.ret
  bind := Exec.bind

/-- The call `log.Fatalf(lead + "%v", err)`: logs the formatted message at fatal level and
ends the process. -/
def log.Fatalf (lead : String) (err : Error) : Exec Unit :=
  Exec.fatal (lead ++ err)

/-- The wallet operations called by the actions; they are defined outside `cmd_wallet.go`. -/
structure WalletOps (Ctx Wallet : Type) where
  CreateWallet : Ctx → Option Wallet × Option Error
  EditWalletConfiguration : Ctx → Option Error
  RecoverWallet : Ctx → Option Error

/-- A subcommand (`cli.Command` without subcommands of its own). -/
structure Command (Ctx : Type) where
  Name : String
  Usage : String
  Flags : List Flag
  Action : Ctx → Exec (Option Error)

/-- The top-level `cli.Command`. -/
structure RootCommand (Ctx : Type) where
  Name : String
  Category : String
  Usage : String
  Subcommands : List (Command Ctx)

/-- The subcommand literal `create` of `WalletCommands`. -/
def createCommand {Ctx Wallet : Type} (ops : WalletOps Ctx Wallet) : Command Ctx where
  Name := "create"
  Usage := "creates a new wallet with a desired type of keymanager: " ++
    "either on-disk (direct), derived, or using remote credentials"
  Flags := [
    Flag.WalletDirFlag,
    Flag.WalletPasswordsDirFlag,
    Flag.KeymanagerKindFlag,
    Flag.GrpcRemoteAddressFlag,
    Flag.RemoteSignerCertPathFlag,
    Flag.RemoteSignerKeyPathFlag,
    Flag.RemoteSignerCACertPathFlag,
    Flag.WalletPasswordFileFlag,
    Flag.AltonaTestnet,
    Flag.MedallaTestnet]
  Action := fun cliCtx => do
    if let some err := (ops.CreateWallet cliCtx).2 then
      log.Fatalf "Could not create a wallet: " err
    return none

/-- The subcommand literal `edit-config` of `WalletCommands`. -/
def editConfigCommand {Ctx Wallet : Type} (ops : WalletOps Ctx Wallet) : Command Ctx where
  Name := "edit-config"
  Usage := "edits a wallet configuration options, such as gRPC connection credentials and TLS certificates"
  Flags := [
    Flag.WalletDirFlag,
    Flag.GrpcRemoteAddressFlag,
    Flag.RemoteSignerCertPathFlag,
    Flag.RemoteSignerKeyPathFlag,
    Flag.RemoteSignerCACertPathFlag,
    Flag.WalletPasswordsDirFlag,
    Flag.AltonaTestnet,
    Flag.MedallaTestnet]
  Action := fun cliCtx => do
    if let some err := ops.EditWalletConfiguration cliCtx then
      log.Fatalf "Could not edit wallet configuration: " err
    return none

/-- The subcommand literal `recover` of `WalletCommands`. -/
def recoverCommand {Ctx Wallet : Type} (ops : WalletOps Ctx Wallet) : Command Ctx where
  Name := "recover"
  Usage := "uses a derived wallet seed recovery phase to recreate an existing HD wallet"
  Flags := [
    Flag.WalletDirFlag,
    Flag.WalletPasswordsDirFlag,
    Flag.MnemonicFileFlag,
    Flag.WalletPasswordFileFlag,
    Flag.NumAccountsFlag,
    Flag.AltonaTestnet,
    Flag.MedallaTestnet]
  Action := fun cliCtx => do
    if let some err := ops.RecoverWallet cliCtx then
      log.Fatalf "Could not recover wallet: " err
    return none

/-- Go `WalletCommands`. -/
def WalletCommands {Ctx Wallet : Type} (ops : WalletOps Ctx Wallet) : RootCommand Ctx where
  Name := "wallet-v2"
  Category := "wallet-v2"
  Usage := "defines commands for interacting with eth2 validator wallets (work in progress)"
  Subcommands := [createCommand ops, editConfigCommand ops, recoverCommand ops]

/-- The options given to a subcommand on its command line, as pairs of option name and
value; it is also the context the action of the subcommand then receives. -/
abbrev Options := List (String × String)

/-- Flag parsing of `(*cli.Command).Run` in the imported library `urfave/cli`, for the
options given to a subcommand: they are parsed against the flag set built from the
`Flags` of that command, whose names `name` gives; an option that names none of them is
the usage error `flag provided but not defined`, otherwise the context holds the options. -/
def Command.parseFlags {Ctx : Type} (name : Flag → String) (cmd : Command Ctx)
    (opts : Options) : Except Error Options :=
  match opts.find? (fun o => decide (o.1 ∉ cmd.Flags.map name)) with
  | some o => Except.error ("flag provided but not defined: -" ++ o.1)
  | none => Except.ok opts

/-- Running a subcommand as `(*cli.Command).Run` of `urfave/cli` does: on a usage error
the error is returned and the action does not run; otherwise the action runs on the
parsed context. -/
def Command.Run (name : Flag → String) (cmd : Command Options) (opts : Options) :
    Exec (Option Error) :=
  match cmd.parseFlags name opts with
  | Except.error err => Exec.ret (some err)
  | Except.ok cliCtx => cmd.Action cliCtx

end AccountsV2


/-! ## Statements of the specification, and concrete instances -/

namespace Sharding

/-- File content with its trailing newline bytes removed and otherwise unchanged: the
password as the specification words it. -/
def contentWithoutTrailingNewlines (blob : List Byte) : GoString :=
  blob.rdropWhile (fun b => b == newline)

/-- File content with its leading and its trailing newline bytes removed and otherwise
unchanged. -/
def contentWithoutOuterNewlines (blob : List Byte) : GoString :=
  (contentWithoutTrailingNewlines blob).dropWhile (fun b => b == newline)

/-- The passwords handed to `keystore.Unlock` in a trace, in call order. -/
def unlockPasswords {Account Rpc : Type} : List (Event Account Rpc) → List GoString
  | [] => []
  | Event.unlock _ pass :: t => pass :: unlockPasswords t
  | _ :: t => unlockPasswords t

/-- The paths read in a trace, in call order. -/
def filesRead {Account Rpc : Type} : List (Event Account Rpc) → List String
  | [] => []
  | Event.readFile path :: t => path :: filesRead t
  | _ :: t => filesRead t

/-- The password file flag as go-ethereum declares it: name `password`, empty default. -/
def gethPasswordFileFlag : StringFlag := ⟨"password", ""⟩

/-- A keystore whose single account has the empty password. -/
def exampleKeystore : KeyStore Nat where
  Unlock := fun _ pass =>
    if pass = [] then none else some "could not decrypt key with given passphrase"

/-- An environment in which every read yields `file`, every dial yields `dial`, and
`verifyVMC` leaves the client as it is and returns `vmcErr`. -/
def exampleEnv (file : Except Error (List Byte)) (dial : Except Error Nat)
    (vmcErr : Option Error) : Env Nat Nat where
  PasswordFileFlag := gethPasswordFileFlag
  ReadFile := fun _ => file
  DefaultIPCEndpoint := fun id => "/root/.ethereum/" ++ id ++ ".ipc"
  Dial := fun _ => dial
  verifyVMC := fun c => (c, vmcErr)

/-- A client whose context has the password flag set to `/tmp/pw` when `isSet` holds. -/
def exampleClient (isSet : Bool) : Client Nat Nat where
  endpoint := "/data/geth.ipc"
  client := none
  keystore := exampleKeystore
  ctx := ⟨fun n => isSet && n == "password", fun n => if n = "password" then "/tmp/pw" else ""⟩
  networkID := 1

/-- The bytes of a file holding a newline, then `pw`, then a newline. -/
def leadingNewlineFile : List Byte := [10, 112, 119, 10]

/-- The text of the error `ioutil.ReadFile` returns for a missing `/tmp/pw`. -/
def missingFileError : Error := "open /tmp/pw: no such file or directory"

/-- The message the specification expects for a failed read of `path`: the path the
context holds for the flag, followed by the text of the read error. -/
def expectedUnreadableError (path : String) (err : Error) : Error :=
  "unable to read account password contents in file " ++ path ++ ". " ++ err

end Sharding

namespace AccountsV2

/-- Modelled from the spec: the `Name` of each flag declaration is given in package
`flags`, which is not among the sources; the specification's CLI surface names the
options, and a naming of the declarations agrees with it when each listed option is
the name of the declaration that stands for it in `WalletCommands`. -/
structure SpecNames (name : Flag → String) : Prop where
  walletDir : name Flag.WalletDirFlag = "wallet-dir"
  keymanagerKind : name Flag.KeymanagerKindFlag = "keymanager-kind"
  passwordFile : name Flag.WalletPasswordFileFlag = "password-file"
  remoteAddress : name Flag.GrpcRemoteAddressFlag = "remote-address"
  remoteCert : name Flag.RemoteSignerCertPathFlag = "remote-cert"
  remoteKey : name Flag.RemoteSignerKeyPathFlag = "remote-key"
  remoteCACert : name Flag.RemoteSignerCACertPathFlag = "remote-ca-cert"
  mnemonicFile : name Flag.MnemonicFileFlag = "mnemonic-file"
  numAccounts : name Flag.NumAccountsFlag = "num-accounts"

/-- The options the specification lists for a subcommand of `wallet`. -/
def specOptions (subcommand : String) : List String :=
  if subcommand = "create" then
    ["wallet-dir", "keymanager-kind", "password-file", "remote-address", "remote-cert",
      "remote-key", "remote-ca-cert"]
  else if subcommand = "edit-config" then
    ["wallet-dir", "remote-address", "remote-cert", "remote-key", "remote-ca-cert"]
  else if subcommand = "recover" then
    ["wallet-dir", "mnemonic-file", "password-file", "num-accounts"]
  else []

/-- What the specification says of an action: given the error `opErr` of the wallet
operation it calls, the action returns nil exactly when there is none, never returns an
error, and on an error ends the process with `lead` followed by the error text. -/
def ActionContract (out : Exec (Option Error)) (opErr : Option Error) (lead : String) : Prop :=
  (out = Exec.ret none ↔ opErr = none) ∧
  (∀ err, out ≠ Exec.ret (some err)) ∧
  (∀ err, opErr = some err → out = Exec.fatal (lead ++ err))

/-- A naming of the flag declarations that agrees with the specification. -/
def exampleNames : Flag → String
  | Flag.WalletDirFlag => "wallet-dir"
  | Flag.WalletPasswordsDirFlag => "passwords-dir"
  | Flag.KeymanagerKindFlag => "keymanager-kind"
  | Flag.GrpcRemoteAddressFlag => "remote-address"
  | Flag.RemoteSignerCertPathFlag => "remote-cert"
  | Flag.RemoteSignerKeyPathFlag => "remote-key"
  | Flag.RemoteSignerCACertPathFlag => "remote-ca-cert"
  | Flag.WalletPasswordFileFlag => "password-file"
  | Flag.MnemonicFileFlag => "mnemonic-file"
  | Flag.NumAccountsFlag => "num-accounts"
  | Flag.AltonaTestnet => "altona"
  | Flag.MedallaTestnet => "medalla"

/-- Wallet operations over a trivial context: creation fails because a wallet exists,
editing and recovery succeed. -/
def exampleOps : WalletOps Unit Unit where
  CreateWallet := fun _ => (none, some "wallet already exists")
  EditWalletConfiguration := fun _ => none
  RecoverWallet := fun _ => none

/-- Wallet operations over the options of a subcommand: each of them succeeds. -/
def exampleCliOps : WalletOps Options Unit where
  CreateWallet := fun _ => (some (), none)
  EditWalletConfiguration := fun _ => none
  RecoverWallet := fun _ => none

end AccountsV2

/-! ## Theorems: the wallet commands -/

namespace AccountsV2

/-- C1: `WalletCommands` has the three subcommands create, edit-config and recover, in
this order, and under every naming of the flag declarations that agrees with the
specification each option the specification lists for a subcommand is the name of one
of that subcommand's flags. -/
theorem WalletCommands_carry_spec_options {Ctx Wallet : Type} (ops : WalletOps Ctx Wallet)
    (name : Flag → String) (h : SpecNames name) :
    (WalletCommands ops).Subcommands.map (fun cmd => cmd.Name)
        = ["create", "edit-config", "recover"] ∧
      ∀ cmd ∈ (WalletCommands ops).Subcommands,
        ∀ o ∈ specOptions cmd.Name, o ∈ cmd.Flags.map name := by
  refine ⟨rfl, ?_⟩
  intro cmd hcmd o ho
  simp only [WalletCommands, List.mem_cons, List.mem_singleton, List.not_mem_nil,
    or_false] at hcmd
  rcases hcmd with rfl | rfl | rfl
  · simp only [createCommand, specOptions, if_true, List.mem_cons, List.mem_singleton,
      List.not_mem_nil, or_false] at ho
    simp only [createCommand, List.map_cons, List.map_nil, h.walletDir, h.keymanagerKind,
      h.passwordFile, h.remoteAddress, h.remoteCert, h.remoteKey, h.remoteCACert]
    rcases ho with rfl | rfl | rfl | rfl | rfl | rfl | rfl <;> simp
  · have hne : ("edit-config" : String) ≠ "create" := by decide
    simp only [editConfigCommand, specOptions, hne, if_false, if_true, List.mem_cons,
      List.mem_singleton, List.not_mem_nil, or_false] at ho
    simp only [editConfigCommand, List.map_cons, List.map_nil, h.walletDir,
      h.remoteAddress, h.remoteCert, h.remoteKey, h.remoteCACert]
    rcases ho with rfl | rfl | rfl | rfl | rfl <;> simp
  · have hne1 : ("recover" : String) ≠ "create" := by decide
    have hne2 : ("recover" : String) ≠ "edit-config" := by decide
    simp only [recoverCommand, specOptions, hne1, hne2, if_false, if_true, List.mem_cons,
      List.mem_singleton, List.not_mem_nil, or_false] at ho
    simp only [recoverCommand, List.map_cons, List.map_nil, h.walletDir,
      h.mnemonicFile, h.passwordFile, h.numAccounts]
    rcases ho with rfl | rfl | rfl | rfl <;> simp

/-- The example naming agrees with the specification. -/
theorem exampleNames_spec : SpecNames exampleNames :=
  ⟨rfl, rfl, rfl, rfl, rfl, rfl, rfl, rfl, rfl⟩

/-- Witness of C1 at the example naming and the example wallet operations. -/
theorem WalletCommands_carry_spec_options_witness :
    SpecNames exampleNames ∧
      ((WalletCommands exampleOps).Subcommands.map (fun cmd => cmd.Name)
          = ["create", "edit-config", "recover"] ∧
        ∀ cmd ∈ (WalletCommands exampleOps).Subcommands,
          ∀ o ∈ specOptions cmd.Name, o ∈ cmd.Flags.map exampleNames) :=
  ⟨exampleNames_spec, WalletCommands_carry_spec_options exampleOps exampleNames exampleNames_spec⟩

/-- An action of the shape used by the three subcommands meets the contract. -/
theorem actionContract_of_shape (opErr : Option Error) (lead : String) :
    ActionContract
      (do
        if let some err := opErr then
          log.Fatalf lead err
        return none)
      opErr lead := by
  cases opErr with
  | none =>
    refine ⟨⟨fun _ => rfl, fun _ => rfl⟩, ?_, ?_⟩
    · intro err h
      cases h
    · intro err h
      cases h
  | some e =>
    refine ⟨⟨?_, ?_⟩, ?_, ?_⟩
    · intro h
      cases h
    · intro h
      cases h
    · intro err h
      cases h
    · intro err h
      cases h
      rfl

/-- C2: for each of the three subcommands of `WalletCommands`, the action returns a nil
error exactly when the wallet operation it calls returns no error; it never returns an
error to its caller; and when the operation returns an error the action ends the process
through the fatal logger with the fixed lead text of the subcommand followed by the
text of the error. -/
theorem WalletCommands_actions {Ctx Wallet : Type} (ops : WalletOps Ctx Wallet)
    (cliCtx : Ctx) :
    (WalletCommands ops).Subcommands
        = [createCommand ops, editConfigCommand ops, recoverCommand ops] ∧
      ((createCommand ops).Name = "create" ∧
        ActionContract ((createCommand ops).Action cliCtx) (ops.CreateWallet cliCtx).2
          "Could not create a wallet: ") ∧
      ((editConfigCommand ops).Name = "edit-config" ∧
        ActionContract ((editConfigCommand ops).Action cliCtx)
          (ops.EditWalletConfiguration cliCtx) "Could not edit wallet configuration: ") ∧
      ((recoverCommand ops).Name = "recover" ∧
        ActionContract ((recoverCommand ops).Action cliCtx) (ops.RecoverWallet cliCtx)
          "Could not recover wallet: ") :=
  ⟨rfl, ⟨rfl, actionContract_of_shape _ _⟩, ⟨rfl, actionContract_of_shape _ _⟩,
    ⟨rfl, actionContract_of_shape _ _⟩⟩

/-- Witness of C2: with the example operations, where creation fails, the create action
ends the process with the create lead text followed by the error text. -/
theorem WalletCommands_actions_witness :
    (exampleOps.CreateWallet ()).2 = some "wallet already exists" ∧
      (createCommand exampleOps).Action ()
        = Exec.fatal "Could not create a wallet: wallet already exists" :=
  ⟨rfl, (WalletCommands_actions exampleOps ()).2.1.2.2.2 "wallet already exists" rfl⟩

/-- Parsing succeeds exactly when every option given names a flag of the command, and
the context then holds the options given. -/
theorem parseFlags_ok_iff {Ctx : Type} (name : Flag → String) (cmd : Command Ctx)
    (opts cliCtx : Options) :
    cmd.parseFlags name opts = Except.ok cliCtx ↔
      cliCtx = opts ∧ ∀ o ∈ opts, o.1 ∈ cmd.Flags.map name := by
  unfold Command.parseFlags
  cases hf : opts.find? (fun o => decide (o.1 ∉ cmd.Flags.map name)) with
  | none =>
    have hall : ∀ o ∈ opts, o.1 ∈ cmd.Flags.map name := by
      intro o ho
      have := List.find?_eq_none.mp hf o ho
      simpa using this
    constructor
    · intro h
      cases h
      exact ⟨rfl, hall⟩
    · rintro ⟨rfl, _⟩
      rfl
  | some o =>
    have hmem : o ∈ opts := List.mem_of_find?_eq_some hf
    have hnot : o.1 ∉ cmd.Flags.map name := by
      have := List.find?_some hf
      simpa using this
    constructor
    · intro h
      cases h
    · rintro ⟨_, hall⟩
      exact absurd (hall o hmem) hnot

/-- C3: `WalletCommands` has the subcommands create, edit-config and recover, and among
them exactly create carries the keymanager kind flag: create lists the declaration
`KeymanagerKindFlag`, edit-config and recover do not, and under every naming in which
`keymanager-kind` names that declaration and no other, a subcommand has a flag named
`keymanager-kind` exactly when it is create. Hence create can be given a keymanager
kind, which reaches its action, while a subcommand other than create cannot: whatever
the wallet operations are, its action only ever runs on a context without a
`keymanager-kind` option, and a command line that gives one is answered by a usage error
without the action being run. -/
theorem keymanagerKind_only_on_create {Wallet : Type} (ops : WalletOps Options Wallet)
    (name : Flag → String)
    (h : ∀ f, name f = "keymanager-kind" ↔ f = Flag.KeymanagerKindFlag) :
    (WalletCommands ops).Subcommands
        = [createCommand ops, editConfigCommand ops, recoverCommand ops] ∧
      (WalletCommands ops).Subcommands.map (fun cmd => cmd.Name)
        = ["create", "edit-config", "recover"] ∧
      (Flag.KeymanagerKindFlag ∈ (createCommand ops).Flags ∧
        Flag.KeymanagerKindFlag ∉ (editConfigCommand ops).Flags ∧
        Flag.KeymanagerKindFlag ∉ (recoverCommand ops).Flags) ∧
      (∀ cmd ∈ (WalletCommands ops).Subcommands,
        (Flag.KeymanagerKindFlag ∈ cmd.Flags ↔ cmd.Name = "create") ∧
        ("keymanager-kind" ∈ cmd.Flags.map name ↔ cmd.Name = "create")) ∧
      (∀ kind : String,
        (createCommand ops).parseFlags name [("keymanager-kind", kind)]
          = Except.ok [("keymanager-kind", kind)] ∧
        (createCommand ops).Run name [("keymanager-kind", kind)]
          = (createCommand ops).Action [("keymanager-kind", kind)]) ∧
      (∀ cmd ∈ (WalletCommands ops).Subcommands, cmd.Name ≠ "create" →
        ∀ opts : Options,
          (∀ cliCtx, cmd.parseFlags name opts = Except.ok cliCtx →
            cmd.Run name opts = cmd.Action cliCtx ∧
              "keymanager-kind" ∉ cliCtx.map Prod.fst) ∧
          ("keymanager-kind" ∈ opts.map Prod.fst →
            ∃ o, cmd.Run name opts
              = Exec.ret (some ("flag provided but not defined: -" ++ o)))) := by
  have hcreate : Flag.KeymanagerKindFlag ∈ (createCommand ops).Flags := by
    simp [createCommand]
  have hedit : Flag.KeymanagerKindFlag ∉ (editConfigCommand ops).Flags := by
    simp [editConfigCommand]
  have hrecover : Flag.KeymanagerKindFlag ∉ (recoverCommand ops).Flags := by
    simp [recoverCommand]
  have hmem : ∀ cmd : Command Options,
      "keymanager-kind" ∈ cmd.Flags.map name ↔ Flag.KeymanagerKindFlag ∈ cmd.Flags := by
    intro cmd
    constructor
    · intro hm
      obtain ⟨f, hf, hname⟩ := List.mem_map.mp hm
      exact (h f).mp hname ▸ hf
    · intro hm
      exact List.mem_map.mpr ⟨Flag.KeymanagerKindFlag, hm, (h _).mpr rfl⟩
  have hflag : ∀ cmd ∈ (WalletCommands ops).Subcommands,
      (Flag.KeymanagerKindFlag ∈ cmd.Flags ↔ cmd.Name = "create") := by
    intro cmd hcmd
    simp only [WalletCommands, List.mem_cons, List.mem_singleton, List.not_mem_nil,
      or_false] at hcmd
    rcases hcmd with rfl | rfl | rfl
    · exact ⟨fun _ => rfl, fun _ => hcreate⟩
    · have hn : ("edit-config" : String) ≠ "create" := by decide
      exact ⟨fun hm => absurd hm hedit, fun hc => absurd hc hn⟩
    · have hn : ("recover" : String) ≠ "create" := by decide
      exact ⟨fun hm => absurd hm hrecover, fun hc => absurd hc hn⟩
  refine ⟨rfl, rfl, ⟨hcreate, hedit, hrecover⟩,
    fun cmd hcmd => ⟨hflag cmd hcmd, (hmem cmd).trans (hflag cmd hcmd)⟩, ?_, ?_⟩
  · intro kind
    have hp : (createCommand ops).parseFlags name [("keymanager-kind", kind)]
        = Except.ok [("keymanager-kind", kind)] := by
      rw [parseFlags_ok_iff]
      refine ⟨rfl, ?_⟩
      intro o ho
      rw [List.mem_singleton] at ho
      subst ho
      exact (hmem (createCommand ops)).mpr hcreate
    refine ⟨hp, ?_⟩
    simp only [Command.Run, hp]
  · intro cmd hcmd hne opts
    have hnot : "keymanager-kind" ∉ cmd.Flags.map name := fun hm =>
      hne ((hflag cmd hcmd).mp ((hmem cmd).mp hm))
    have hctx : ∀ cliCtx, cmd.parseFlags name opts = Except.ok cliCtx →
        "keymanager-kind" ∉ cliCtx.map Prod.fst := by
      intro cliCtx hp hin
      obtain ⟨rfl, hall⟩ := (parseFlags_ok_iff name cmd opts cliCtx).mp hp
      obtain ⟨o, ho, hname⟩ := List.mem_map.mp hin
      exact hnot (hname ▸ hall o ho)
    refine ⟨fun cliCtx hp => ⟨?_, hctx cliCtx hp⟩, ?_⟩
    · simp only [Command.Run, hp]
    · intro hin
      cases hp : cmd.parseFlags name opts with
      | ok cliCtx =>
        obtain ⟨rfl, _⟩ := (parseFlags_ok_iff name cmd opts cliCtx).mp hp
        exact absurd hin (hctx _ hp)
      | error err =>
        have hp2 := hp
        unfold Command.parseFlags at hp2
        cases hf : opts.find? (fun o => decide (o.1 ∉ cmd.Flags.map name)) with
        | none =>
          rw [hf] at hp2
          cases hp2
        | some o =>
          rw [hf] at hp2
          refine ⟨o.1, ?_⟩
          simp only [Command.Run, hp]
          cases hp2
          rfl

/-- In the example naming, `keymanager-kind` names `KeymanagerKindFlag` and no other. -/
theorem exampleNames_keymanagerKind :
    ∀ f, exampleNames f = "keymanager-kind" ↔ f = Flag.KeymanagerKindFlag := by
  intro f
  cases f <;> decide

/-- Witness of C3 at the example naming: the recover subcommand, given a keymanager kind
next to its own option, answers with a usage error, and create accepts the kind. -/
theorem keymanagerKind_only_on_create_witness :
    (∀ f, exampleNames f = "keymanager-kind" ↔ f = Flag.KeymanagerKindFlag) ∧
      (recoverCommand exampleCliOps ∈ (WalletCommands exampleCliOps).Subcommands ∧
        (recoverCommand exampleCliOps).Name ≠ "create" ∧
        "keymanager-kind" ∈ List.map Prod.fst
          [("num-accounts", "2"), ("keymanager-kind", "derived")]) ∧
      (∃ o, (recoverCommand exampleCliOps).Run exampleNames
          [("num-accounts", "2"), ("keymanager-kind", "derived")]
        = Exec.ret (some ("flag provided but not defined: -" ++ o))) ∧
      (createCommand exampleCliOps).parseFlags exampleNames [("keymanager-kind", "derived")]
        = Except.ok [("keymanager-kind", "derived")] :=
  ⟨exampleNames_keymanagerKind,
    ⟨by simp [WalletCommands], by decide, by decide⟩,
    ((keymanagerKind_only_on_create exampleCliOps exampleNames
        exampleNames_keymanagerKind).2.2.2.2.2 (recoverCommand exampleCliOps)
        (by simp [WalletCommands]) (by decide) _).2 (by decide),
    ((keymanagerKind_only_on_create exampleCliOps exampleNames
        exampleNames_keymanagerKind).2.2.2.2.1 "derived").1⟩

end AccountsV2

/-! ## Theorems: the sharding client -/

namespace Sharding

/-- C4: for every account, when the password file flag is not set on the context of the
client, `unlockAccount` reads no file, makes exactly one call, `keystore.Unlock` with that
account and the empty password, and returns exactly the result of that call. -/
theorem unlockAccount_flag_unset {Account Rpc : Type} (env : Env Account Rpc)
    (c : Client Account Rpc) (account : Account)
    (h : c.ctx.GlobalIsSet env.PasswordFileFlag.Name = false) :
    (c.unlockAccount env account).trace = [Event.unlock account []] ∧
      filesRead (c.unlockAccount env account).trace = [] ∧
      (c.unlockAccount env account).result = c.keystore.Unlock account [] := by
  simp [Client.unlockAccount, h, filesRead]

/-- Witness of C4: the example client without the flag, whatever the file holds. -/
theorem unlockAccount_flag_unset_witness :
    (exampleClient false).ctx.GlobalIsSet
        (exampleEnv (Except.ok leadingNewlineFile) (Except.ok 0) none).PasswordFileFlag.Name
        = false ∧
      (((exampleClient false).unlockAccount
            (exampleEnv (Except.ok leadingNewlineFile) (Except.ok 0) none) 7).trace
          = [Event.unlock 7 []] ∧
        filesRead ((exampleClient false).unlockAccount
            (exampleEnv (Except.ok leadingNewlineFile) (Except.ok 0) none) 7).trace = [] ∧
        ((exampleClient false).unlockAccount
            (exampleEnv (Except.ok leadingNewlineFile) (Except.ok 0) none) 7).result
          = (exampleClient false).keystore.Unlock 7 []) :=
  ⟨rfl, unlockAccount_flag_unset _ (exampleClient false) 7 rfl⟩

/-- Go `trimLeftByte` drops the longest run of leading bytes equal to `c`. -/
theorem trimLeftByte_eq_dropWhile (s : GoString) (c : Byte) :
    strings.trimLeftByte s c = s.dropWhile (fun b => b == c) := by
  induction s with
  | nil => rfl
  | cons b t ih =>
    by_cases hb : b = c
    · simp [strings.trimLeftByte, List.dropWhile, hb, ih]
    · have hbeq : (b == c) = false := by simpa using hb
      simp [strings.trimLeftByte, List.dropWhile, hb, hbeq]

/-- Go `trimRightByte` on the newline is the content without its trailing newlines. -/
theorem trimRightByte_newline (blob : List Byte) :
    strings.trimRightByte blob newline = contentWithoutTrailingNewlines blob := by
  simp [strings.trimRightByte, contentWithoutTrailingNewlines, List.rdropWhile,
    trimLeftByte_eq_dropWhile]

/-- Go `strings.Trim` on the newline is the content without its outer newlines. -/
theorem Trim_newline (blob : List Byte) :
    strings.Trim blob newline = contentWithoutOuterNewlines blob := by
  simp [strings.Trim, contentWithoutOuterNewlines, trimRightByte_newline,
    trimLeftByte_eq_dropWhile]

/-- The content is its part without outer newlines, between a run of newlines before it
and a run of newlines after it. -/
theorem contentWithoutOuterNewlines_split (blob : List Byte) :
    ∃ before after : List Byte,
      blob = before ++ contentWithoutOuterNewlines blob ++ after ∧
      (∀ b ∈ before, b = newline) ∧ (∀ b ∈ after, b = newline) := by
  refine ⟨(contentWithoutTrailingNewlines blob).takeWhile (fun b => b == newline),
    blob.rtakeWhile (fun b => b == newline), ?_, ?_, ?_⟩
  · have h1 : blob.rdropWhile (fun b => b == newline)
        ++ blob.rtakeWhile (fun b => b == newline) = blob := by
      simp [List.rdropWhile, List.rtakeWhile, ← List.reverse_append]
    have h2 := List.takeWhile_append_dropWhile (fun b => b == newline)
      (contentWithoutTrailingNewlines blob)
    unfold contentWithoutOuterNewlines
    rw [h2]
    exact h1.symm
  · intro b hb
    simpa using List.mem_takeWhile_imp hb
  · intro b hb
    simpa using List.mem_rtakeWhile_imp hb

/-- The trimmed content never ends in a newline. -/
theorem Trim_newline_last (blob : List Byte) :
    (strings.Trim blob newline).getLast? ≠ some newline := by
  have hT : strings.Trim blob newline
      = (contentWithoutTrailingNewlines blob).dropWhile (fun b => b == newline) := by
    simp [strings.Trim, trimRightByte_newline, trimLeftByte_eq_dropWhile]
  rw [hT]
  intro hlast
  have hsuf := List.dropWhile_suffix (l := contentWithoutTrailingNewlines blob)
    (fun b => b == newline)
  have hne : (contentWithoutTrailingNewlines blob).dropWhile (fun b => b == newline) ≠ [] := by
    intro hnil
    rw [hnil] at hlast
    cases hlast
  have hne2 : contentWithoutTrailingNewlines blob ≠ [] := by
    intro hnil
    rw [hnil] at hne
    exact hne rfl
  have h1 := hsuf.getLast hne
  rw [List.getLast?_eq_getLast _ hne, h1] at hlast
  have h2 := List.rdropWhile_last_not (fun b => b == newline) blob hne2
  apply h2
  simp only [contentWithoutTrailingNewlines] at hlast
  simpa using Option.some.inj hlast

/-- The content without outer newlines never begins with a newline. -/
theorem contentWithoutOuterNewlines_head (blob : List Byte) :
    (contentWithoutOuterNewlines blob).head? ≠ some newline := by
  intro hhead
  have h := List.head?_dropWhile_not (fun b => b == newline)
    (contentWithoutTrailingNewlines blob)
  unfold contentWithoutOuterNewlines at hhead
  rw [hhead] at h
  simp at h

/-- C5 (counterexample): the flag of the example client is set and its password file,
read successfully, holds a newline, `pw` and a newline; the password handed to
`keystore.Unlock` is `pw`, which is not the content with its trailing newlines removed and
otherwise unchanged, a newline followed by `pw`. -/
theorem unlockAccount_password_not_only_trailing :
    (exampleClient true).ctx.GlobalIsSet gethPasswordFileFlag.Name = true ∧
    unlockPasswords ((exampleClient true).unlockAccount
        (exampleEnv (Except.ok leadingNewlineFile) (Except.ok 0) none) 7).trace
      = [[112, 119]] ∧
    contentWithoutTrailingNewlines leadingNewlineFile = [10, 112, 119] ∧
    unlockPasswords ((exampleClient true).unlockAccount
        (exampleEnv (Except.ok leadingNewlineFile) (Except.ok 0) none) 7).trace
      ≠ [contentWithoutTrailingNewlines leadingNewlineFile] := by
  decide

/-- C5 (amended): for every content of the password file, when the password file flag is
set and the file is read successfully, `unlockAccount` reads that file, calls
`keystore.Unlock` once and returns its result, and the password it hands over is the
content with its leading and trailing newline bytes removed and otherwise unchanged: the
content is that password between a run of newlines before and a run of newlines after,
and the password neither begins nor ends with a newline. -/
theorem unlockAccount_password_trimmed {Account Rpc : Type} (env : Env Account Rpc)
    (c : Client Account Rpc) (account : Account) (blob : List Byte)
    (hset : c.ctx.GlobalIsSet env.PasswordFileFlag.Name = true)
    (hread : env.ReadFile (c.ctx.GlobalString env.PasswordFileFlag.Name) = Except.ok blob) :
    (c.unlockAccount env account).trace
        = [Event.readFile (c.ctx.GlobalString env.PasswordFileFlag.Name),
            Event.unlock account (contentWithoutOuterNewlines blob)] ∧
      unlockPasswords (c.unlockAccount env account).trace
        = [contentWithoutOuterNewlines blob] ∧
      (c.unlockAccount env account).result
        = c.keystore.Unlock account (contentWithoutOuterNewlines blob) ∧
      (∃ before after : List Byte,
        blob = before ++ contentWithoutOuterNewlines blob ++ after ∧
        (∀ b ∈ before, b = newline) ∧ (∀ b ∈ after, b = newline)) ∧
      (contentWithoutOuterNewlines blob).head? ≠ some newline ∧
      (contentWithoutOuterNewlines blob).getLast? ≠ some newline := by
  have hlast := Trim_newline_last blob
  rw [Trim_newline] at hlast
  refine ⟨?_, ?_, ?_, contentWithoutOuterNewlines_split blob,
    contentWithoutOuterNewlines_head blob, hlast⟩
  · simp [Client.unlockAccount, hset, hread, Trim_newline]
  · simp [Client.unlockAccount, hset, hread, Trim_newline, unlockPasswords]
  · simp [Client.unlockAccount, hset, hread, Trim_newline]

/-- Witness of C5 (amended): the example client with the flag set and the file holding a
newline, `pw` and a newline hands `pw` to `keystore.Unlock`. -/
theorem unlockAccount_password_trimmed_witness :
    (exampleClient true).ctx.GlobalIsSet
        (exampleEnv (Except.ok leadingNewlineFile) (Except.ok 0) none).PasswordFileFlag.Name
        = true ∧
      (exampleEnv (Except.ok leadingNewlineFile) (Except.ok 0) none).ReadFile
          ((exampleClient true).ctx.GlobalString
            (exampleEnv (Except.ok leadingNewlineFile) (Except.ok 0) none).PasswordFileFlag.Name)
        = Except.ok leadingNewlineFile ∧
      contentWithoutOuterNewlines leadingNewlineFile = [112, 119] ∧
      unlockPasswords ((exampleClient true).unlockAccount
          (exampleEnv (Except.ok leadingNewlineFile) (Except.ok 0) none) 7).trace
        = [contentWithoutOuterNewlines leadingNewlineFile] :=
  ⟨rfl, rfl, by decide,
    (unlockAccount_password_trimmed
      (exampleEnv (Except.ok leadingNewlineFile) (Except.ok 0) none) (exampleClient true) 7
      leadingNewlineFile rfl rfl).2.1⟩

/-- The outcome of `Start` when dialling fails. -/
theorem Start_of_dial_error {Account Rpc : Type} (env : Env Account Rpc)
    (c : Client Account Rpc) (e : Error)
    (hd : (dialRPC env c.endpoint).result = Except.error e) :
    c.Start env
      = ⟨c, [Event.logInfo "Starting sharding client"] ++ (dialRPC env c.endpoint).trace,
          some e⟩ := by
  simp only [Client.Start, hd]

/-- The outcome of `Start` when dialling succeeds. -/
theorem Start_of_dial_ok {Account Rpc : Type} (env : Env Account Rpc)
    (c : Client Account Rpc) (rpcClient : Rpc)
    (hd : (dialRPC env c.endpoint).result = Except.ok rpcClient) :
    c.Start env
      = ⟨(env.verifyVMC { c with client := some (ethclient.NewClient rpcClient) }).1,
          [Event.logInfo "Starting sharding client"] ++ (dialRPC env c.endpoint).trace
            ++ [Event.verifyVMC, Event.close rpcClient],
          (env.verifyVMC { c with client := some (ethclient.NewClient rpcClient) }).2⟩ := by
  simp only [Client.Start, hd]
  rcases env.verifyVMC { c with client := some (ethclient.NewClient rpcClient) }
    with ⟨c2, _ | e⟩ <;> rfl

/-- C6: `Start` returns nil if and only if dialling the endpoint of the client succeeds
and `verifyVMC`, called on the client holding the new connection, then succeeds; if
dialling fails `Start` returns the dial error, does not call `verifyVMC` and leaves the
client, its `client` field included, unchanged; if `verifyVMC` fails `Start` returns the
error of `verifyVMC`. -/
theorem Start_contract {Account Rpc : Type} (env : Env Account Rpc) (c : Client Account Rpc) :
    ((c.Start env).err = none ↔
      ∃ rpcClient, (dialRPC env c.endpoint).result = Except.ok rpcClient ∧
        (env.verifyVMC { c with client := some (ethclient.NewClient rpcClient) }).2 = none) ∧
    (∀ err, (dialRPC env c.endpoint).result = Except.error err →
      (c.Start env).err = some err ∧ Event.verifyVMC ∉ (c.Start env).trace ∧
        (c.Start env).client.client = c.client ∧ (c.Start env).client = c) ∧
    (∀ rpcClient err, (dialRPC env c.endpoint).result = Except.ok rpcClient →
      (env.verifyVMC { c with client := some (ethclient.NewClient rpcClient) }).2 = some err →
      (c.Start env).err = some err ∧ Event.verifyVMC ∈ (c.Start env).trace) := by
  refine ⟨?_, ?_, ?_⟩
  · cases hd : (dialRPC env c.endpoint).result with
    | error e =>
      rw [Start_of_dial_error env c e hd]
      simp
    | ok rpcClient =>
      rw [Start_of_dial_ok env c rpcClient hd]
      simp
  · intro err hd
    rw [Start_of_dial_error env c err hd]
    simp [dialRPC]
  · intro rpcClient err hd hv
    rw [Start_of_dial_ok env c rpcClient hd]
    simp [hv]

/-- Witness of C6: in an environment whose dial is refused, `Start` of the example client
returns the dial error, does not call `verifyVMC` and leaves the client unchanged. -/
theorem Start_contract_witness :
    (dialRPC (exampleEnv (Except.ok []) (Except.error "connection refused") none)
        (exampleClient false).endpoint).result = Except.error "connection refused" ∧
      (((exampleClient false).Start
            (exampleEnv (Except.ok []) (Except.error "connection refused") none)).err
          = some "connection refused" ∧
        Event.verifyVMC ∉ ((exampleClient false).Start
            (exampleEnv (Except.ok []) (Except.error "connection refused") none)).trace ∧
        ((exampleClient false).Start
            (exampleEnv (Except.ok []) (Except.error "connection refused") none)).client.client
          = (exampleClient false).client ∧
        ((exampleClient false).Start
            (exampleEnv (Except.ok []) (Except.error "connection refused") none)).client
          = exampleClient false) :=
  ⟨rfl, (Start_contract _ (exampleClient false)).2.1 "connection refused" rfl⟩

/-- When the flag is set and the read fails, `unlockAccount` only reads the file, does
not call `keystore.Unlock`, and returns an error whose message holds the default value
of the flag declaration, not the path read, followed by the text of the read error. -/
theorem unlockAccount_read_error {Account Rpc : Type} (env : Env Account Rpc)
    (c : Client Account Rpc) (account : Account) (err : Error)
    (hset : c.ctx.GlobalIsSet env.PasswordFileFlag.Name = true)
    (hread : env.ReadFile (c.ctx.GlobalString env.PasswordFileFlag.Name) = Except.error err) :
    (c.unlockAccount env account).trace
        = [Event.readFile (c.ctx.GlobalString env.PasswordFileFlag.Name)] ∧
      unlockPasswords (c.unlockAccount env account).trace = [] ∧
      (c.unlockAccount env account).result
        = some ("unable to read account password contents in file "
            ++ env.PasswordFileFlag.Value ++ ". " ++ err) := by
  simp [Client.unlockAccount, hset, hread, unlockPasswords, unreadableError]

/-- C8 (divergence): the example client has the flag set to `/tmp/pw` and the read
fails; `unlockAccount` returns an error without calling `keystore.Unlock`, but its
message names the empty default of the flag declaration where the specification expects
the path `/tmp/pw`. -/
theorem unlockAccount_read_error_omits_path :
    (exampleClient true).ctx.GlobalString gethPasswordFileFlag.Name = "/tmp/pw" ∧
    ((exampleClient true).unlockAccount
        (exampleEnv (Except.error missingFileError) (Except.ok 0) none) 7).trace
      = [Event.readFile "/tmp/pw"] ∧
    ((exampleClient true).unlockAccount
        (exampleEnv (Except.error missingFileError) (Except.ok 0) none) 7).result
      = some ("unable to read account password contents in file . "
          ++ "open /tmp/pw: no such file or directory") ∧
    ((exampleClient true).unlockAccount
        (exampleEnv (Except.error missingFileError) (Except.ok 0) none) 7).result
      ≠ some (expectedUnreadableError "/tmp/pw" missingFileError) := by
  decide

end Sharding
